import Mathlib

/-!
Shallow embedding of the supervisor–agent orchestration engine of this
repository (src/workflows/base-supervisor-workflow.ts) together with the
webhook / GitHub service helpers the claims refer to
(src/services/github/GitHubService.ts and the WebhookService file).

External collaborators (the LLM decision oracle, the react-agent reasoning
sessions, HMAC-SHA256) are modelled as explicit function parameters; the
engine's own control flow, reducers, routing and limits are translated
directly from the TypeScript source.
-/

/-- The langgraph terminal marker `END` (the string `"__end__"`). -/
def END : String := "__end__"

/-- One chat message.  `name` is the optional `name` field of a langchain
message (`undefined` on the initial `HumanMessage`, the formatted agent name
on agent outputs); `content` is the message content. -/
structure Message where
  name : Option String
  content : String
deriving DecidableEq, Repr

/-- The state threaded through the graph, per `initializeBaseState`:
`messages : BaseMessage[]` and `next : string`. -/
structure RunState where
  messages : List Message
  next : String
deriving DecidableEq, Repr

/-- A partial state update returned by a node.  `messages := []` models the
`messages` key being absent (the concat reducer makes these equivalent);
`next := none` models the `next` key being absent or `undefined`. -/
structure StateUpdate where
  messages : List Message
  next : Option String
deriving DecidableEq, Repr

/-- Reducer of the `messages` channel: `(x, y) => x.concat(y)`
(base-supervisor-workflow.ts line 59). -/
def messagesReducer (x y : List Message) : List Message := x ++ y

/-- Reducer of the `next` channel: `(x, y) => y ?? x ?? END` with default
`() => END` (base-supervisor-workflow.ts lines 62-65).  The current channel
value is a string (never null after the default), the incoming update may be
absent. -/
def nextReducer (x y : Option String) : String :=
  match y with
  | some v => v
  | none =>
    match x with
    | some v => v
    | none => END

/-- Apply a node's partial update to the state via the channel reducers. -/
def applyUpdate (s : RunState) (u : StateUpdate) : RunState :=
  { messages := messagesReducer s.messages u.messages
    next := nextReducer (some s.next) u.next }

/-- Capitalize one `_`-separated word the way
`word.charAt(0).toUpperCase() + word.slice(1)` does (for the empty word the
result is the empty string, as in JS). -/
def capitalizeWord : List Char → String
  | [] => ""
  | c :: cs => String.mk (c.toUpper :: cs)

/-- `name.split('_')`, char-list version (keeps empty segments like JS). -/
def splitOnUnderscore : List Char → List (List Char)
  | [] => [[]]
  | c :: t =>
    match splitOnUnderscore t with
    | [] => if c = '_' then [[], []] else [[c]]
    | w :: ws => if c = '_' then [] :: w :: ws else (c :: w) :: ws

/-- `array.join('_')`. -/
def joinWithUnderscore : List String → String
  | [] => ""
  | w :: ws => ws.foldl (fun acc x => acc ++ "_" ++ x) w

/-- `formatAgentName` (base-supervisor-workflow.ts lines 245-250):
`name.split('_').map(word => word.charAt(0).toUpperCase() + word.slice(1)).join('_')`. -/
def formatAgentName (name : String) : String :=
  joinWithUnderscore ((splitOnUnderscore name.data).map capitalizeWord)

/-- The update produced by an agent node (base-supervisor-workflow.ts lines
207-221) from the react-agent session's resulting message list: it reads
`result.messages[result.messages.length - 1]` and returns a single new
`HumanMessage` named with the formatted agent name.  `none` models the
TypeError the JS code would throw on an empty session result. -/
def agentNodeUpdate (agentName : String) (sessionMessages : List Message) :
    Option StateUpdate :=
  match sessionMessages.getLast? with
  | none => none
  | some lastMessage =>
    some { messages := [{ name := some (formatAgentName agentName)
                          content := lastMessage.content }]
           next := none }

/-- The part of `WorkflowConfig` the executor semantics depends on:
the declared member names and the recursion limit handed to
`graph.invoke` (`config.recursionLimit || 100`). -/
structure WorkflowConfig where
  members : List String
  recursionLimit : Nat
deriving DecidableEq, Repr

/-- `this.options = [END, ...this.config.members]` (line 73): the legal
destination set offered to the decision oracle via the `route` tool enum. -/
def options (cfg : WorkflowConfig) : List String :=
  END :: cfg.members

/-- The external collaborators of one run.
`oracle` is the supervisor chain's output `x?.tool_calls?.[0]?.args`
projected to its `next` field (`none` models a response with no tool call);
`session` is `createReactAgent(...).invoke(state).messages` for the agent of
the given name. -/
structure Collaborators where
  oracle : RunState → Option String
  session : String → RunState → List Message

/-- The nodes of the compiled graph: `'supervisor'` plus one node per
declared member (`buildWorkflow`, lines 196 and 223). -/
inductive GraphNode
  | supervisor
  | agent (name : String)
deriving DecidableEq, Repr

/-- The ways `graph.invoke` can reject a run.  `recursionLimitReached` is
langgraph's `GraphRecursionError` (more super-steps needed than
`recursionLimit`); `invalidDestination` is langgraph's error when the
conditional edge names a node that does not exist in the graph;
`agentSessionEmpty` is the TypeError on an empty react-agent result.
The repository defines no error of its own here (in particular none named
`RoutingViolation` or `IterationLimitExceeded`). -/
inductive RunError
  | recursionLimitReached
  | invalidDestination (dest : String)
  | agentSessionEmpty (name : String)
deriving DecidableEq, Repr

/-- The execution loop of the compiled graph.  Edges (lines 226-236):
`START → supervisor`; every member → `supervisor`; from `supervisor` a
conditional edge on `state.next` with no path map, so it may target `END`,
any member node, or the `'supervisor'` node itself, and fails on any other
name.  `fuel` is the number of super-steps `recursionLimit` still allows;
the second component of the result counts supervisor invocations performed
(pure instrumentation used only to state the iteration-ceiling property; it
does not influence the run). -/
def runFrom (cfg : WorkflowConfig) (ext : Collaborators) :
    Nat → GraphNode → RunState → Nat → Except RunError RunState × Nat
  | 0, _, _, supCount => (.error .recursionLimitReached, supCount)
  | fuel + 1, .supervisor, s, supCount =>
    let s' := applyUpdate s { messages := [], next := ext.oracle s }
    if s'.next = END then
      (.ok s', supCount + 1)
    else if s'.next = "supervisor" then
      runFrom cfg ext fuel .supervisor s' (supCount + 1)
    else if cfg.members.contains s'.next then
      runFrom cfg ext fuel (.agent s'.next) s' (supCount + 1)
    else
      (.error (.invalidDestination s'.next), supCount + 1)
  | fuel + 1, .agent name, s, supCount =>
    match agentNodeUpdate name (ext.session name s) with
    | none => (.error (.agentSessionEmpty name), supCount)
    | some u => runFrom cfg ext fuel .supervisor (applyUpdate s u) supCount

/-- The initial channel state after `graph.invoke(initialState, ...)` is
given `{ messages: [new HumanMessage({ content: initialMessage })] }`
(lines 150-152): channel defaults (`[]`, `END`) with the input applied. -/
def initialRunState (initialMessage : String) : RunState :=
  applyUpdate { messages := [], next := END }
    { messages := [{ name := none, content := initialMessage }], next := none }

/-- `graph.invoke` with `recursionLimit` (lines 166-171): execution starts
at the supervisor node and may take at most `recursionLimit` super-steps. -/
def graphInvoke (cfg : WorkflowConfig) (ext : Collaborators)
    (initialState : RunState) : Except RunError RunState × Nat :=
  runFrom cfg ext cfg.recursionLimit .supervisor initialState 0

/-- One `BaseSupervisorWorkflow` object.  Its constructor (lines 45-53) runs
`this.store = new InMemoryStore()` and `this.checkpointer = new MemorySaver()`
exactly once; we record the identities of those two allocations as tokens so
that sharing across runs can be observed. -/
structure BaseSupervisorWorkflow where
  config : WorkflowConfig
  storeId : Nat
  checkpointerId : Nat
deriving DecidableEq, Repr

/-- Constructing a workflow object with two freshly allocated handle
identities (the two `new` expressions in the constructor). -/
def mkBaseSupervisorWorkflow (cfg : WorkflowConfig)
    (freshStoreId freshCheckpointerId : Nat) : BaseSupervisorWorkflow :=
  { config := cfg, storeId := freshStoreId, checkpointerId := freshCheckpointerId }

instance {ε α : Type _} [DecidableEq ε] [DecidableEq α] :
    DecidableEq (Except ε α) := fun x y =>
  match x, y with
  | .error e, .error f =>
    if h : e = f then isTrue (by subst h; rfl)
    else isFalse (fun hc => h (by cases hc; rfl))
  | .error _, .ok _ => isFalse (fun hc => Except.noConfusion hc)
  | .ok _, .error _ => isFalse (fun hc => Except.noConfusion hc)
  | .ok a, .ok b =>
    if h : a = b then isTrue (by subst h; rfl)
    else isFalse (fun hc => h (by cases hc; rfl))

/-- Observable footprint of one `execute` call (lines 101-186): which store
and checkpointer handles were passed to `workflow.compile` (lines 136-139),
the `thread_id` used (line 169), and the graph result. -/
structure ExecuteTrace where
  usedStoreId : Nat
  usedCheckpointerId : Nat
  threadId : String
  result : Except RunError RunState
  supervisorCalls : Nat
deriving DecidableEq, Repr

/-- `execute(owner, repo, prNumber, ...)`: builds the initial human message
via the subclass's `createInitialMessage`, compiles the workflow with
`this.store` and `this.checkpointer`, and invokes the graph with
`thread_id = owner/repo#prNumber`. -/
def BaseSupervisorWorkflow.execute (w : BaseSupervisorWorkflow)
    (ext : Collaborators) (createInitialMessage : String → String → Nat → String)
    (owner repo : String) (prNumber : Nat) : ExecuteTrace :=
  let run := graphInvoke w.config ext
    (initialRunState (createInitialMessage owner repo prNumber))
  { usedStoreId := w.storeId
    usedCheckpointerId := w.checkpointerId
    threadId := owner ++ "/" ++ repo ++ "#" ++ toString prNumber
    result := run.1
    supervisorCalls := run.2 }

/-- The `result.messages[result.messages.length - 1]` returned to the caller
(lines 180-181), `none` when the run errored. -/
def ExecuteTrace.finalMessage (t : ExecuteTrace) : Option Message :=
  match t.result with
  | .ok s => s.messages.getLast?
  | .error _ => none

/-! Service-layer helpers (GitHubService.ts, WebhookService). -/

/-- Does the char list `sub` occur as a contiguous run inside `l`?  This is
JS `String.prototype.includes` on the underlying characters. -/
def listHasSub (sub : List Char) : List Char → Bool
  | [] => sub.isEmpty
  | c :: t => sub.isPrefixOf (c :: t) || listHasSub sub t

/-- JS `s.includes(sub)`. -/
def strIncludes (s sub : String) : Bool :=
  listHasSub sub.data s.data

/-- JS `s.toLowerCase()` (character-wise lowering). -/
def lowerStr (s : String) : String :=
  String.mk (s.data.map Char.toLower)

/-- Node's `crypto.timingSafeEqual` on the UTF-8 buffers of two strings: it
throws when the byte lengths differ and otherwise reports buffer equality
(equal-length UTF-8 buffers are equal exactly when the strings are, since
UTF-8 encoding is injective). -/
def timingSafeEqual (a b : String) : Except String Bool :=
  if a.utf8ByteSize ≠ b.utf8ByteSize then
    .error "Input buffers must have the same byte length"
  else
    .ok (a == b)

/-- `GitHubService.verifyWebhookSignature` (GitHubService.ts lines 118-133).
`hmacHex payload` stands for
`crypto.createHmac('sha256', this.webhookSecret).update(payload, 'utf8').digest('hex')`;
the `try`/`catch` around `timingSafeEqual` maps the thrown length-mismatch
error to `false`. -/
def GitHubService.verifyWebhookSignature (hmacHex : String → String)
    (payload signature : String) : Bool :=
  let expectedSignature := "sha256=" ++ hmacHex payload
  match timingSafeEqual signature expectedSignature with
  | .ok b => b
  | .error _ => false

/-- `GitHubService.isCommentFromBot` (GitHubService.ts lines 459-475).
`botUsername` is the optional configured bot username; the JS guard
`this.botUsername && commentUser === this.botUsername` treats an empty
string as falsy, hence the `b ≠ ""` conjunct. -/
def GitHubService.isCommentFromBot (botUsername : Option String)
    (commentUser : String) : Bool :=
  if (match botUsername with
      | some b => decide (b ≠ "") && (commentUser == b)
      | none => false) then
    true
  else if strIncludes commentUser "[bot]" || strIncludes commentUser "bot"
      || strIncludes (lowerStr commentUser) "github-actions" then
    true
  else
    false

/-- The fields of a webhook request that `WebhookService.verifySignature`
reads: the optional `x-hub-signature-256` header and the serialized body
`JSON.stringify(req.body)`. -/
structure WebhookRequest where
  signatureHeader : Option String
  payload : String
deriving DecidableEq, Repr

/-- `WebhookService.verifySignature` (WebhookService lines 86-101): throws
when services are uninitialized, accepts (`true`) when the header is absent
or empty (JS `if (!signature) return true`), and otherwise delegates to
`verifyWebhookSignature`. -/
def WebhookService.verifySignature (servicesInitialized : Bool)
    (hmacHex : String → String) (req : WebhookRequest) : Except String Bool :=
  if servicesInitialized = false then
    .error "Services not initialized"
  else
    match req.signatureHeader with
    | none => .ok true
    | some sig =>
      if sig = "" then .ok true
      else .ok (GitHubService.verifyWebhookSignature hmacHex req.payload sig)

/-- The fields of an `issue_comment` webhook event that
`handleIssueCommentEvent` reads. -/
structure CommentData where
  userLogin : String
  body : String
deriving DecidableEq, Repr

/-- An `issue_comment` event: optional comment, optional repository (only
presence matters here), and the truthiness of `issue?.pull_request`. -/
structure IssueCommentEvent where
  comment : Option CommentData
  repositoryPresent : Bool
  issuePullRequest : Bool
deriving DecidableEq, Repr

/-- What `handleIssueCommentEvent` does with an event. -/
inductive CommentHandling
  | ignored
  | skippedBotComment
  | botMentionHandled (user : String) (body : String)
  | noMention
deriving DecidableEq, Repr

/-- `WebhookService.handleIssueCommentEvent` (WebhookService lines 295-324):
returns early unless comment, repository and `issue.pull_request` are all
present, silently skips comments whose author `isCommentFromBot`, and only
then consults `isBotMentioned` (modelled by the `mentioned` parameter, since
it is a regex over the configured names) to decide whether to invoke the
assistant workflow via `handleBotMention`. -/
def WebhookService.handleIssueCommentEvent (botUsername : Option String)
    (mentioned : String → Bool) (ev : IssueCommentEvent) : CommentHandling :=
  match ev.comment with
  | none => .ignored
  | some c =>
    if ev.repositoryPresent = false then .ignored
    else if ev.issuePullRequest = false then .ignored
    else if GitHubService.isCommentFromBot botUsername c.userLogin then
      .skippedBotComment
    else if mentioned c.body then
      .botMentionHandled c.userLogin c.body
    else
      .noMention

/-! Helper lemmas about the execution loop. -/

/-- The supervisor-invocation count grows by at most one per unit of fuel,
whatever the outcome of the run. -/
lemma runFrom_count_le (cfg : WorkflowConfig) (ext : Collaborators) :
    ∀ (fuel : Nat) (node : GraphNode) (s : RunState) (c : Nat),
      (runFrom cfg ext fuel node s c).2 ≤ c + fuel := by
  intro fuel
  induction fuel with
  | zero => intro node s c; simp [runFrom]
  | succ k ih =>
    intro node s c
    cases node with
    | supervisor =>
      simp only [runFrom]
      split
      · dsimp only; omega
      · split
        · refine le_trans (ih _ _ _) ?_
          omega
        · split
          · refine le_trans (ih _ _ _) ?_
            omega
          · dsimp only; omega
    | agent name =>
      simp only [runFrom]
      split
      · dsimp only; omega
      · refine le_trans (ih _ _ _) ?_
        omega

/-- Under an oracle that always selects a declared member (never the
terminal marker), well-formed member names, and nonempty agent sessions,
the loop can only exhaust its fuel. -/
lemma runFrom_limit (cfg : WorkflowConfig) (ext : Collaborators)
    (hOracle : ∀ s, ∃ m, ext.oracle s = some m ∧ cfg.members.contains m = true)
    (hEnd : cfg.members.contains END = false)
    (hSup : cfg.members.contains "supervisor" = false)
    (hSess : ∀ nm s, (ext.session nm s).getLast?.isSome = true) :
    ∀ (fuel : Nat) (node : GraphNode) (s : RunState) (c : Nat),
      (runFrom cfg ext fuel node s c).1 = .error .recursionLimitReached := by
  intro fuel
  induction fuel with
  | zero => intro node s c; rfl
  | succ k ih =>
    intro node s c
    cases node with
    | supervisor =>
      obtain ⟨m, hm, hmem⟩ := hOracle s
      have hnext :
          (applyUpdate s { messages := [], next := ext.oracle s }).next = m := by
        simp [applyUpdate, nextReducer, hm]
      have hmEnd : ¬(m = END) := by
        intro hc
        subst hc
        rw [hmem] at hEnd
        exact Bool.noConfusion hEnd
      have hmSup : ¬(m = "supervisor") := by
        intro hc
        subst hc
        rw [hmem] at hSup
        exact Bool.noConfusion hSup
      simp only [runFrom]
      simp only [hnext]
      rw [if_neg hmEnd, if_neg hmSup, if_pos (by simpa using hmem)]
      exact ih _ _ _
    | agent name =>
      obtain ⟨lm, hl⟩ := Option.isSome_iff_exists.mp (hSess name s)
      simp only [runFrom, agentNodeUpdate, hl]
      exact ih _ _ _

/-! Concrete workflows used by claims and witnesses. -/

/-- Scenario A configuration: members `[agent1, agent2]`, default
`recursionLimit` of 100. -/
def cfgA : WorkflowConfig := { members := ["agent1", "agent2"], recursionLimit := 100 }

/-- Scenario A collaborators: a stub oracle returning the fixed sequence
`[agent1, agent2, END]` (the message list grows by one per agent turn, so
its length identifies the round), and deterministic agent sessions whose
final output is `analysis by <name>`. -/
def extA : Collaborators :=
  { oracle := fun s =>
      if s.messages.length = 1 then some "agent1"
      else if s.messages.length = 2 then some "agent2"
      else some END
    session := fun name s =>
      s.messages ++ [{ name := none, content := "analysis by " ++ name }] }

/-- A workflow whose oracle first names `supervisor` — a destination outside
the legal set `options` — and then the terminal marker. -/
def cfgSupLoop : WorkflowConfig := { members := ["agent1"], recursionLimit := 100 }

/-- Oracle naming `"supervisor"` on the first call (when `next` still holds
its default `END`), then the terminal marker. -/
def extSupLoop : Collaborators :=
  { oracle := fun s => if s.next = "supervisor" then some END else some "supervisor"
    session := fun _ _ => [] }

/-- A workflow whose oracle names a destination that is neither legal nor a
graph node. -/
def cfgBogus : WorkflowConfig := { members := ["agent1"], recursionLimit := 100 }

/-- Oracle always naming the unknown destination `bogus`. -/
def extBogus : Collaborators :=
  { oracle := fun _ => some "bogus", session := fun _ _ => [] }

/-- Scenario C style configuration: ceiling 3, oracle that never selects the
terminal marker. -/
def cfgLoop : WorkflowConfig := { members := ["agent1"], recursionLimit := 3 }

/-- Oracle always routing to `agent1`; sessions produce one message. -/
def extLoop : Collaborators :=
  { oracle := fun _ => some "agent1"
    session := fun _ _ => [{ name := none, content := "out" }] }

/-! Claim theorems. -/

/-- C1, counterexample: the decision-oracle response `"supervisor"` is
outside the legal destination set `options cfgSupLoop`, yet the run does not
fail: the conditional edge routes it to the `supervisor` graph node and the
run later completes normally (no `RoutingViolation` — no such error exists
in the code). -/
theorem supervisor_destination_not_rejected :
    extSupLoop.oracle (initialRunState "m") = some "supervisor"
    ∧ (options cfgSupLoop).contains "supervisor" = false
    ∧ graphInvoke cfgSupLoop extSupLoop (initialRunState "m")
        = (.ok { messages := [{ name := none, content := "m" }], next := END }, 2) :=
  ⟨by decide, by decide, by decide⟩

/-- C1 (amended): a decision-oracle response naming a destination outside
the legal set that is also not the internal node name `"supervisor"` makes
the run fail — with langgraph's unknown-destination error, since the code
defines no `RoutingViolation`; a response naming `"supervisor"` is instead
routed back to the supervisor node (see the counterexample). -/
theorem illegal_destination_fails_run (cfg : WorkflowConfig) (ext : Collaborators)
    (fuel : Nat) (s : RunState) (c : Nat) (d : String)
    (hd : ext.oracle s = some d)
    (hopt : (options cfg).contains d = false)
    (hsup : d ≠ "supervisor") :
    runFrom cfg ext (fuel + 1) .supervisor s c
      = (.error (.invalidDestination d), c + 1) := by
  have hnext :
      (applyUpdate s { messages := [], next := ext.oracle s }).next = d := by
    simp [applyUpdate, nextReducer, hd]
  simp only [options, List.contains_cons, Bool.or_eq_false_iff, beq_eq_false_iff_ne] at hopt
  simp only [runFrom]
  simp only [hnext]
  rw [if_neg hopt.1, if_neg hsup, if_neg (by simpa using hopt.2)]

theorem illegal_destination_fails_run_witness :
    runFrom cfgBogus extBogus 100 .supervisor (initialRunState "m") 0
      = (.error (.invalidDestination "bogus"), 1) :=
  illegal_destination_fails_run cfgBogus extBogus 99 (initialRunState "m") 0
    "bogus" rfl (by decide) (by decide)

/-- C2: the supervisor-invocation count of any run never exceeds the
configured `recursionLimit` ceiling, and under an oracle that never selects
the terminal marker (and never misroutes) the run aborts with the
recursion-limit error — langgraph's `GraphRecursionError`, the code's
realization of `IterationLimitExceeded` — rather than returning a
truncated result. -/
theorem supervisor_count_bounded (cfg : WorkflowConfig) (ext : Collaborators)
    (init : RunState) :
    (graphInvoke cfg ext init).2 ≤ cfg.recursionLimit
    ∧ ((∀ s, ∃ m, ext.oracle s = some m ∧ cfg.members.contains m = true) →
        cfg.members.contains END = false →
        cfg.members.contains "supervisor" = false →
        (∀ nm s, (ext.session nm s).getLast?.isSome = true) →
        (graphInvoke cfg ext init).1 = .error .recursionLimitReached) := by
  constructor
  · have := runFrom_count_le cfg ext cfg.recursionLimit .supervisor init 0
    simpa [graphInvoke] using this
  · intro h1 h2 h3 h4
    exact runFrom_limit cfg ext h1 h2 h3 h4 cfg.recursionLimit .supervisor init 0

theorem supervisor_count_bounded_witness :
    (graphInvoke cfgLoop extLoop (initialRunState "go")).2 ≤ cfgLoop.recursionLimit
    ∧ (graphInvoke cfgLoop extLoop (initialRunState "go")).1
        = .error .recursionLimitReached :=
  ⟨(supervisor_count_bounded cfgLoop extLoop (initialRunState "go")).1,
   (supervisor_count_bounded cfgLoop extLoop (initialRunState "go")).2
     (fun _ => ⟨"agent1", rfl, by decide⟩) (by decide) (by decide)
     (fun _ _ => rfl)⟩

/-- C3: the `messages` field only grows along the execution loop — from any
point of the run, the state's message list is a prefix of the final message
list (nothing is removed, mutated or reordered; the concat reducer only
appends). -/
theorem messages_monotone (cfg : WorkflowConfig) (ext : Collaborators) :
    ∀ (fuel : Nat) (node : GraphNode) (s : RunState) (c : Nat) (s' : RunState),
      (runFrom cfg ext fuel node s c).1 = .ok s' →
      s.messages <+: s'.messages := by
  intro fuel
  induction fuel with
  | zero => intro node s c s' h; exact Except.noConfusion h
  | succ k ih =>
    intro node s c s' h
    cases node with
    | supervisor =>
      have hmid :
          s.messages <+: (applyUpdate s { messages := [], next := ext.oracle s }).messages := by
        simp [applyUpdate, messagesReducer]
      simp only [runFrom] at h
      split at h
      · dsimp only at h
        cases h
        exact hmid
      · split at h
        · exact hmid.trans (ih _ _ _ _ h)
        · split at h
          · exact hmid.trans (ih _ _ _ _ h)
          · exact Except.noConfusion h
    | agent name =>
      simp only [runFrom] at h
      split at h
      · exact Except.noConfusion h
      · rename_i u heq
        have hmid : s.messages <+: (applyUpdate s u).messages :=
          List.prefix_append s.messages u.messages
        exact hmid.trans (ih _ _ _ _ h)

theorem messages_monotone_witness :
    (initialRunState "review please").messages <+:
      [{ name := none, content := "review please" },
       { name := some "Agent1", content := "analysis by agent1" },
       { name := some "Agent2", content := "analysis by agent2" }] :=
  messages_monotone cfgA extA 100 .supervisor (initialRunState "review please") 0
    { messages := [{ name := none, content := "review please" },
                   { name := some "Agent1", content := "analysis by agent1" },
                   { name := some "Agent2", content := "analysis by agent2" }]
      next := END }
    (by decide)


/-- Configuration for a single security agent step. -/
def cfgStep : WorkflowConfig := { members := ["security_agent"], recursionLimit := 8 }

/-- Collaborators whose agent session ends with the message `finding`. -/
def extStep : Collaborators :=
  { oracle := fun _ => some END
    session := fun _ s => s.messages ++ [{ name := none, content := "finding" }] }

/-- C4: executing an agent node updates the state with exactly one new
message, authored under the agent's declared name converted by
`formatAgentName` (snake_case → Title_Case) with content equal to the final
output of the reasoning session (the last message of the session result);
nothing else in the state changes. -/
theorem agent_step_appends_one_message (cfg : WorkflowConfig) (ext : Collaborators)
    (fuel : Nat) (name : String) (s : RunState) (c : Nat) (m : Message)
    (h : (ext.session name s).getLast? = some m) :
    runFrom cfg ext (fuel + 1) (.agent name) s c
      = runFrom cfg ext fuel .supervisor
          { messages := s.messages
              ++ [{ name := some (formatAgentName name), content := m.content }]
            next := s.next } c := by
  simp only [runFrom, agentNodeUpdate, h]
  rfl

theorem agent_step_appends_one_message_witness :
    runFrom cfgStep extStep 8 (.agent "security_agent") (initialRunState "hi") 0
      = runFrom cfgStep extStep 7 .supervisor
          { messages := [{ name := none, content := "hi" },
                         { name := some "Security_Agent", content := "finding" }]
            next := END } 0 :=
  agent_step_appends_one_message cfgStep extStep 7 "security_agent"
    (initialRunState "hi") 0 { name := none, content := "finding" } (by decide)

/-- C5 (Scenario A): with members `[agent1, agent2]` and the oracle sequence
`[agent1, agent2, END]`, the run terminates successfully with exactly 3
messages — the initial human message plus one message per agent, none for
the terminal decision — and `next` equal to the terminal marker. -/
theorem scenario_a_three_messages :
    graphInvoke cfgA extA (initialRunState "review please")
      = (.ok { messages := [{ name := none, content := "review please" },
                            { name := some "Agent1", content := "analysis by agent1" },
                            { name := some "Agent2", content := "analysis by agent2" }],
               next := END }, 3)
    ∧ ([{ name := none, content := "review please" : Message },
        { name := some "Agent1", content := "analysis by agent1" },
        { name := some "Agent2", content := "analysis by agent2" }]).length = 3 :=
  ⟨by decide, rfl⟩

/-- A minimal workflow object and initial-message builder used to exercise
`execute`. -/
def wShared : BaseSupervisorWorkflow := mkBaseSupervisorWorkflow cfgSupLoop 7 8

/-- A `createInitialMessage` implementation (any deterministic one). -/
def mkMsg : String → String → Nat → String :=
  fun owner repo prNumber => owner ++ "/" ++ repo ++ " PR " ++ toString prNumber

/-- C6, counterexample: two different runs of the same workflow object use
the *same* store handle and the *same* checkpointer handle — the ones the
constructor allocated once — so checkpoint handles and auxiliary stores are
shared across runs, contradicting the claimed freshness. -/
theorem store_and_checkpointer_shared_across_runs :
    (wShared.execute extSupLoop mkMsg "owner" "repo" 1).usedStoreId
      = (wShared.execute extSupLoop mkMsg "owner" "repo" 2).usedStoreId
    ∧ (wShared.execute extSupLoop mkMsg "owner" "repo" 1).usedCheckpointerId
      = (wShared.execute extSupLoop mkMsg "owner" "repo" 2).usedCheckpointerId :=
  ⟨rfl, rfl⟩

/-- C6 (amended): every run of a workflow object passes the store and
checkpointer allocated once by the constructor to `workflow.compile` — the
compiled graph instance is fresh per run, but those two handles are reused
by every run of the object (and the thread key `owner/repo#prNumber` makes
re-runs for the same PR share checkpointed state). -/
theorem execute_reuses_constructor_handles (w : BaseSupervisorWorkflow)
    (ext : Collaborators) (f : String → String → Nat → String)
    (owner repo : String) (prNumber : Nat) :
    (w.execute ext f owner repo prNumber).usedStoreId = w.storeId
    ∧ (w.execute ext f owner repo prNumber).usedCheckpointerId = w.checkpointerId :=
  ⟨rfl, rfl⟩

/-- C7: the embedded graph execution is a deterministic function of its
inputs — two workflow objects with the same configuration, driven by the
same stub oracle, the same deterministic agent sessions and the same
initial message, produce the same run result and in particular identical
final Message content, independently of object identity (store or
checkpointer handles). -/
theorem run_deterministic (w1 w2 : BaseSupervisorWorkflow) (ext : Collaborators)
    (f : String → String → Nat → String) (owner repo : String) (prNumber : Nat)
    (h : w1.config = w2.config) :
    (w1.execute ext f owner repo prNumber).result
      = (w2.execute ext f owner repo prNumber).result
    ∧ (w1.execute ext f owner repo prNumber).finalMessage
      = (w2.execute ext f owner repo prNumber).finalMessage := by
  have hres : (w1.execute ext f owner repo prNumber).result
      = (w2.execute ext f owner repo prNumber).result := by
    simp only [BaseSupervisorWorkflow.execute, h]
  refine ⟨hres, ?_⟩
  simp only [ExecuteTrace.finalMessage, hres]

theorem run_deterministic_witness :
    ((mkBaseSupervisorWorkflow cfgA 0 1).execute extA mkMsg "o" "r" 5).finalMessage
      = ((mkBaseSupervisorWorkflow cfgA 2 3).execute extA mkMsg "o" "r" 5).finalMessage :=
  (run_deterministic (mkBaseSupervisorWorkflow cfgA 0 1)
    (mkBaseSupervisorWorkflow cfgA 2 3) extA mkMsg "o" "r" 5 rfl).2

/-- C8: a webhook request with no `x-hub-signature-256` header is treated as
implicitly valid — `verifySignature` returns `true` without any HMAC check
(given initialized services) — and the HMAC comparison is only reached for
requests that do carry a non-empty signature header. -/
theorem missing_signature_header_accepted (hmacHex : String → String)
    (payload : String) :
    WebhookService.verifySignature true hmacHex ⟨none, payload⟩ = .ok true
    ∧ ∀ sig, sig ≠ "" →
        WebhookService.verifySignature true hmacHex ⟨some sig, payload⟩
          = .ok (GitHubService.verifyWebhookSignature hmacHex payload sig) := by
  refine ⟨rfl, ?_⟩
  intro sig hs
  simp [WebhookService.verifySignature, hs]

theorem missing_signature_header_accepted_witness :
    WebhookService.verifySignature true (fun _ => "ab") ⟨none, "body"⟩ = .ok true
    ∧ WebhookService.verifySignature true (fun _ => "ab") ⟨some "sig", "body"⟩
        = .ok (GitHubService.verifyWebhookSignature (fun _ => "ab") "body" "sig") :=
  ⟨(missing_signature_header_accepted (fun _ => "ab") "body").1,
   (missing_signature_header_accepted (fun _ => "ab") "body").2 "sig" (by decide)⟩

/-- C9: `verifyWebhookSignature` is total — it returns a boolean for every
payload and signature — and in particular when the signature's UTF-8 byte
length differs from that of the expected `sha256=<hmac>` string (where
`crypto.timingSafeEqual` throws), the exception is caught and the function
returns `false`. -/
theorem verify_signature_total (hmacHex : String → String)
    (payload sig : String) :
    (GitHubService.verifyWebhookSignature hmacHex payload sig = true
      ∨ GitHubService.verifyWebhookSignature hmacHex payload sig = false)
    ∧ (sig.utf8ByteSize ≠ ("sha256=" ++ hmacHex payload).utf8ByteSize →
        GitHubService.verifyWebhookSignature hmacHex payload sig = false) := by
  constructor
  · cases hb : GitHubService.verifyWebhookSignature hmacHex payload sig
    · exact Or.inr rfl
    · exact Or.inl rfl
  · intro hlen
    simp [GitHubService.verifyWebhookSignature, timingSafeEqual, hlen]

theorem verify_signature_total_witness :
    GitHubService.verifyWebhookSignature (fun _ => "beef") "p" "x" = false :=
  (verify_signature_total (fun _ => "beef") "p" "x").2 (by decide)

/-- C10: `isCommentFromBot` returns `true` for every author login containing
the substring `bot` (such as the human login `abbott`), containing `[bot]`,
containing `github-actions` case-insensitively, or equal to the (non-empty)
configured bot username — and `handleIssueCommentEvent` therefore silently
skips issue comments from all such users without invoking any workflow. -/
theorem bot_author_comments_skipped (botUsername : Option String) (user : String)
    (h : strIncludes user "bot" = true
      ∨ strIncludes user "[bot]" = true
      ∨ strIncludes (lowerStr user) "github-actions" = true
      ∨ (∃ b, botUsername = some b ∧ b ≠ "" ∧ user = b)) :
    GitHubService.isCommentFromBot botUsername user = true
    ∧ ∀ (mentioned : String → Bool) (body : String),
        WebhookService.handleIssueCommentEvent botUsername mentioned
          { comment := some { userLogin := user, body := body },
            repositoryPresent := true, issuePullRequest := true }
          = .skippedBotComment := by
  have hbot : GitHubService.isCommentFromBot botUsername user = true := by
    rcases h with h | h | h | ⟨b, hb, hne, hu⟩
    · simp [GitHubService.isCommentFromBot, h]
    · simp [GitHubService.isCommentFromBot, h]
    · simp [GitHubService.isCommentFromBot, h]
    · subst hb
      subst hu
      simp [GitHubService.isCommentFromBot, hne]
  refine ⟨hbot, ?_⟩
  intro mentioned body
  simp [WebhookService.handleIssueCommentEvent, hbot]

theorem bot_author_comments_skipped_witness :
    GitHubService.isCommentFromBot (some "ai-code-reviewer") "abbott" = true
    ∧ WebhookService.handleIssueCommentEvent (some "ai-code-reviewer")
        (fun _ => true)
        { comment := some { userLogin := "abbott", body := "hello" },
          repositoryPresent := true, issuePullRequest := true }
        = .skippedBotComment :=
  ⟨(bot_author_comments_skipped (some "ai-code-reviewer") "abbott"
      (Or.inl (by decide))).1,
   (bot_author_comments_skipped (some "ai-code-reviewer") "abbott"
      (Or.inl (by decide))).2 (fun _ => true) "hello"⟩
